import Mathlib

/-!
Verification of the finn-property-scraper extraction-and-enrichment pipeline.

Shallow embedding of the Python sources:
  finn_property_scraper/scraper.py
  finn_property_scraper/schemas/realestate_metadata.py
  finn_property_scraper/schemas/property.py
  finn_property_scraper/parsers/property_page_parser.py

Strings are modelled as lists of characters where character-level regex
semantics matter; Python floats are modelled as rationals; network and DOM
effects are modelled as explicit input data.
-/

/- ------------------------------------------------------------------
   PageNavigator (scraper.py)
   ------------------------------------------------------------------ -/
/-- Embeds scraper.py, has_more_pages (line 77): the function returns the
Python expression max_page >= current_page. -/
def has_more_pages (currentPage maxPage : Nat) : Bool :=
  decide (currentPage ≤ maxPage)

/-- Decision taken by the scrape loop body (scraper.py lines 111-116):
break when not has_more_pages; otherwise break when a page cap is configured
(Python truthiness: a cap of 0 is falsy and means no cap) and the current
page has reached it; otherwise continue with the next page. -/
inductive LoopDecision where
  | stop
  | continueNext
deriving DecidableEq

/-- Embeds the stop/continue decision of one iteration of the scrape loop. -/
def loopDecision (currentPage maxPage : Nat) (maxPages : Option Nat) : LoopDecision :=
  if !(has_more_pages currentPage maxPage) then LoopDecision.stop
  else
    match maxPages with
    | some cap => if (cap != 0) && decide (cap ≤ currentPage) then LoopDecision.stop
                  else LoopDecision.continueNext
    | none => LoopDecision.continueNext

/- ------------------------------------------------------------------
   ListingMetadataHarvester (scraper.py, realestate_metadata.py)
   ------------------------------------------------------------------ -/
/-- Embeds schemas/realestate_metadata.py, class RealestateMetadata. -/
structure RealestateMetadata where
  url : String
  category : String
  finn_id : String
deriving DecidableEq

/-- The absolute site origin appearing in REALESTATE_PATTERN. -/
def ORIGIN : List Char := ("https://www.finn.no").toList

/-- The fixed segment of REALESTATE_PATTERN before the category group. -/
def SEG1 : List Char := ("/realestate/").toList

/-- The fixed segment of REALESTATE_PATTERN between category and finncode. -/
def SEG2 : List Char := ("/ad.html?finnkode=").toList

/-- The regex character class of the category group of REALESTATE_PATTERN. -/
def isAsciiLetter (c : Char) : Bool :=
  (('a' ≤ c && c ≤ 'z') || ('A' ≤ c && c ≤ 'Z'))

/-- Removes a literal pattern from the front of a character list, the
building block for matching the fixed regex segments. -/
def stripLead : List Char → List Char → Option (List Char)
  | [], s => some s
  | _ :: _, [] => none
  | p :: ps, c :: cs => if c = p then stripLead ps cs else none

/-- Embeds the part of REALESTATE_PATTERN after the optional origin:
a fixed segment, a nonempty greedy letter run, a fixed segment, a nonempty
greedy digit run, then the end anchor, which in a Python pattern matches at
the end of the input and also just before a single trailing newline.
Greediness plus the anchors make the maximal runs the only candidates, so
no backtracking is needed here. -/
def matchBody (s : List Char) : Option (List Char × List Char) :=
  match stripLead SEG1 s with
  | none => none
  | some r1 =>
    let cat := r1.takeWhile isAsciiLetter
    let r2 := r1.dropWhile isAsciiLetter
    if cat.isEmpty then none
    else
      match stripLead SEG2 r2 with
      | none => none
      | some r3 =>
        let code := r3.takeWhile Char.isDigit
        let r4 := r3.dropWhile Char.isDigit
        if code.isEmpty then none
        else if r4.isEmpty || r4 == ['\n'] then some (cat, code) else none

/-- Embeds scraper.py line 19, REALESTATE_PATTERN.match: the optional
origin group is tried greedily first, and on failure of the remainder the
match is retried without consuming the origin. -/
def matchRealestate (s : List Char) : Option (List Char × List Char) :=
  match stripLead ORIGIN s with
  | some rest =>
    match matchBody rest with
    | some r => some r
    | none => matchBody s
  | none => matchBody s

/-- Embeds the RealestateMetadata construction in find_realestate_meta
(scraper.py lines 54-58): the origin is prepended to the href
unconditionally. -/
def mkMeta (href : String) (cat code : List Char) : RealestateMetadata :=
  { url := "https://www.finn.no" ++ href
    category := cat.asString
    finn_id := code.asString }

/-- One iteration of the harvesting loop: append a metadata entry when the
href matches, otherwise leave the accumulator unchanged (the continue
branch). -/
def harvestStep (acc : List RealestateMetadata) (href : String) : List RealestateMetadata :=
  match matchRealestate href.toList with
  | some pc => acc ++ [mkMeta href pc.1 pc.2]
  | none => acc

/-- Embeds scraper.py, find_realestate_meta (lines 43-62): iterate over the
href attributes in DOM order, appending a metadata entry for each match. -/
def find_realestate_meta (hrefs : List String) : List RealestateMetadata :=
  hrefs.foldl harvestStep []

/- ------------------------------------------------------------------
   Characterisation of REALESTATE_PATTERN
   ------------------------------------------------------------------ -/
/-- The listing-URL pattern as the spec words it: the fixed path segments
around a nonempty letter category and a nonempty digit code, with the
absolute origin optionally in front, and an optional single trailing
newline, which the end anchor of a Python pattern accepts. -/
def realestateHref (s cat code : List Char) : Prop :=
  cat ≠ [] ∧ code ≠ [] ∧ (∀ c ∈ cat, isAsciiLetter c = true) ∧
  (∀ c ∈ code, Char.isDigit c = true) ∧
  ∃ tl, (tl = [] ∨ tl = ['\n']) ∧
    (s = SEG1 ++ cat ++ SEG2 ++ code ++ tl ∨
      s = ORIGIN ++ (SEG1 ++ cat ++ SEG2 ++ code ++ tl))

/- ------------------------------------------------------------------
   AddressSplitter (parsers/property_page_parser.py, split_address)
   ------------------------------------------------------------------ -/
/-- The whitespace class of Python str.strip and of the regex class
backslash-s on str patterns: exactly the code points for which CPython's
str.isspace holds (the ASCII whitespace controls, the separator categories
and the extra bidirectional separators; there is no whitespace code point
above U+3000). -/
def isPySpace (c : Char) : Bool :=
  (0x09 ≤ c.toNat && c.toNat ≤ 0x0d) || (0x1c ≤ c.toNat && c.toNat ≤ 0x1f) ||
  c.toNat = 0x20 || c.toNat = 0x85 || c.toNat = 0xa0 || c.toNat = 0x1680 ||
  (0x2000 ≤ c.toNat && c.toNat ≤ 0x200a) ||
  c.toNat = 0x2028 || c.toNat = 0x2029 || c.toNat = 0x202f ||
  c.toNat = 0x205f || c.toNat = 0x3000

/-- Embeds Python str.strip(): remove leading and trailing whitespace. -/
def pyStrip (s : List Char) : List Char :=
  ((s.dropWhile isPySpace).reverse.dropWhile isPySpace).reverse

/-- Embeds Python str.split(sep): split on every separator, keeping empty
parts; the result is never empty. -/
def pySplit (sep : Char) : List Char → List (List Char)
  | [] => [[]]
  | c :: cs =>
    if c = sep then [] :: pySplit sep cs
    else
      match pySplit sep cs with
      | [] => [[c]]
      | p :: ps => (c :: p) :: ps

/-- Embeds one anchored attempt of the regex used by split_address: four
digits, then one or more whitespace characters (greedy), then one or more
characters not containing a newline (the dot class).  When everything after
the digits is whitespace, the greedy whitespace run backtracks and the
second group captures the last non-newline whitespace character at offset
at least one; with no such character the attempt fails. -/
def matchAt (s : List Char) : Option (List Char × List Char) :=
  let d := s.take 4
  if d.length = 4 && d.all Char.isDigit then
    let rest := s.drop 4
    let run := rest.takeWhile isPySpace
    let r2 := rest.dropWhile isPySpace
    if run.isEmpty then none
    else if r2.isEmpty then
      match ((run.drop 1).filter (fun c => !(c = '\n'))).getLast? with
      | some c => some (d, [c])
      | none => none
    else some (d, r2.takeWhile (fun c => !(c = '\n')))
  else none

/-- Embeds re.search with the postal pattern of split_address: try the
anchored attempt at each position, leftmost first. -/
def searchPostal : List Char → Option (List Char × List Char)
  | [] => none
  | c :: cs =>
    match matchAt (c :: cs) with
    | some r => some r
    | none => searchPostal cs

/-- Embeds parsers/property_page_parser.py, split_address (lines 89-101):
split on commas, strip each part, then look for the four-digit postal code
and city in the single part or in the second part. -/
def split_address (addr : Option (List Char)) :
    Option (List Char) × Option (List Char) × Option (List Char) :=
  match addr with
  | none => (none, none, none)
  | some a =>
    if a.isEmpty then (none, none, none)
    else
      match (pySplit ',' a).map pyStrip with
      | [] => (none, none, none)
      | [p0] =>
        match searchPostal p0 with
        | some dc => (none, some dc.1, some (pyStrip dc.2))
        | none => (some p0, none, none)
      | p0 :: p1 :: _ =>
        match searchPostal p1 with
        | some dc => (some p0, some dc.1, some (pyStrip dc.2))
        | none => (some p0, none, none)

/- ------------------------------------------------------------------
   NumericNormalizer (parsers/property_page_parser.py)
   ------------------------------------------------------------------ -/
/-- Value of a nonempty digit string, as Python int() computes it. -/
def natOfDigits (ds : List Char) : Nat :=
  ds.foldl (fun n c => 10 * n + (c.toNat - ('0').toNat)) 0

/-- CPython's default limit on integer-to-string and string-to-integer
conversion: int() on a decimal digit string longer than this raises
ValueError (Python 3.11 and later; this package needs Python 3.12 or later
for its nested-quote f-string in property.py line 58). -/
def INT_MAX_STR_DIGITS : Nat := 4300

/-- Outcome of a Python call with no exception handler around it: a value,
or an escaping ValueError. -/
inductive PyResult (α : Type) where
  | ok (v : α)
  | valueError
deriving DecidableEq

/-- Embeds to_int (lines 22-31): empty or absent input gives none; strip
every non-digit; none when no digit remains; otherwise the integer value.
When the digit string is longer than the conversion limit, int() raises
ValueError and the except branch returns None. -/
def to_int (s : Option (List Char)) : Option Nat :=
  match s with
  | none => none
  | some cs =>
    if cs.isEmpty then none
    else
      let digits := cs.filter Char.isDigit
      if digits.isEmpty then none
      else if digits.length > INT_MAX_STR_DIGITS then none
      else some (natOfDigits digits)

/-- The character class kept by the FLOAT regex substitution. -/
def floatKeep (c : Char) : Bool := c.isDigit || c = ',' || c = '.' || c = '-'

/-- The comma-to-dot replacement of to_float_m2. -/
def commaToDot (c : Char) : Char := if c = ',' then '.' else c

/-- Embeds the search for the first floating-point-shaped substring in
to_float_m2: leftmost digit run, and a following dot-digit run when present.
Returns the integer digits and the (possibly empty) fraction digits. -/
def searchFloat : List Char → Option (List Char × List Char)
  | [] => none
  | c :: cs =>
    if c.isDigit then
      let ip := (c :: cs).takeWhile Char.isDigit
      let rest := (c :: cs).dropWhile Char.isDigit
      match rest with
      | '.' :: r2 =>
        if (r2.takeWhile Char.isDigit).isEmpty then some (ip, [])
        else some (ip, r2.takeWhile Char.isDigit)
      | _ => some (ip, [])
    else searchFloat cs

/-- Embeds to_float_m2 (lines 33-43); the Python float value is modelled as
a rational.  float() has no counterpart of the int() digit-count limit, so
the except branch here really is unreachable. -/
def to_float_m2 (s : Option (List Char)) : Option Rat :=
  match s with
  | none => none
  | some cs =>
    if cs.isEmpty then none
    else
      let cleaned := (cs.filter floatKeep).map commaToDot
      match searchFloat cleaned with
      | none => none
      | some ipfp =>
        some ((natOfDigits ipfp.1 : Rat) + (natOfDigits ipfp.2 : Rat) / ((10 : Rat) ^ ipfp.2.length))

/-- The leftmost run of digits in a string, as re.search with a digit-run
group finds it. -/
def firstDigitRun : List Char → Option (List Char)
  | [] => none
  | c :: cs =>
    if c.isDigit then some ((c :: cs).takeWhile Char.isDigit) else firstDigitRun cs

/-- Embeds to_int_safe (lines 45-49).  The int() call has no try/except
around it, so a first digit run longer than the conversion limit makes the
function raise ValueError instead of returning. -/
def to_int_safe (s : Option (List Char)) : PyResult (Option Nat) :=
  match s with
  | none => PyResult.ok none
  | some cs =>
    if cs.isEmpty then PyResult.ok none
    else
      match firstDigitRun cs with
      | none => PyResult.ok none
      | some ds =>
        if ds.length > INT_MAX_STR_DIGITS then PyResult.valueError
        else PyResult.ok (some (natOfDigits ds))

/- ------------------------------------------------------------------
   Metadata identity and deduplication (realestate_metadata.py, scraper.py)
   ------------------------------------------------------------------ -/
/-- Embeds RealestateMetadata eq (lines 9-10): equality is decided by
finn_id alone. -/
def metaEq (a b : RealestateMetadata) : Bool := a.finn_id == b.finn_id

/-- Embeds RealestateMetadata hash (lines 12-13): the hash of finn_id
alone. -/
def metaHash (m : RealestateMetadata) : UInt64 := m.finn_id.hash

/-- One set insertion under the metadata equality: a Python set keeps the
first stored element of each equality class. -/
def insertMeta (acc : List RealestateMetadata) (m : RealestateMetadata) :
    List RealestateMetadata :=
  if acc.any (fun x => metaEq x m) then acc else acc ++ [m]

/-- The contents of set(property_meta) in scraper.py line 124, as the
first-occurrence representatives in insertion order. -/
def dedupMeta (l : List RealestateMetadata) : List RealestateMetadata :=
  l.foldl insertMeta []

/- ------------------------------------------------------------------
   Address, GeocodeResolver, NeighbourhoodResolver (schemas/property.py)
   ------------------------------------------------------------------ -/
/-- Embeds schemas/property.py, class Address; coordinates are modelled as
rationals. -/
structure Address where
  line : Option String
  postal_code : Option String
  city : Option String
  lat : Option Rat := none
  lon : Option Rat := none
  neighbourhood : Option String := none
deriving DecidableEq

/-- Python truthiness of an optional string: absent and empty are falsy. -/
def present (s : Option String) : Bool :=
  match s with
  | none => false
  | some v => !v.isEmpty

/-- The condition under which resolve_lat_long issues a request: at least
one of line, postal code and city is a truthy string (lines 36-45). -/
def searchWorthy (a : Address) : Bool :=
  present a.line || present a.postal_code || present a.city

/-- The representasjonspunkt object of a geocoding result; either
coordinate may be missing from the JSON. -/
structure RepPoint where
  lat : Option Rat
  lon : Option Rat
deriving DecidableEq

/-- One element of the adresser array of a geocoding response; the
representasjonspunkt key may be missing. -/
structure GeoAdresse where
  representasjonspunkt : Option RepPoint
deriving DecidableEq

/-- Every outcome of the geocoding request in resolve_lat_long: an HTTP
response with a status and a parsed body (adresser may be missing), or a
failure while connecting, waiting or parsing, each of which raises and is
swallowed by the except branch. -/
inductive GeoResponse where
  | ok (status : Nat) (adresser : Option (List GeoAdresse))
  | networkFailure
  | timeoutFailure
  | malformedBody
deriving DecidableEq

/-- Embeds schemas/property.py, Address.resolve_lat_long (lines 33-65):
build the search string from the truthy components, and on a 200 response
whose first result carries both coordinates mutate lat and lon; every other
outcome leaves the address unchanged (a missing representasjonspunkt makes
the logging line raise, which the except branch swallows). -/
def resolve_lat_long (a : Address) (resp : GeoResponse) : Address :=
  if !(searchWorthy a) then a
  else
    match resp with
    | GeoResponse.ok status adresser =>
      if status = 200 then
        match adresser with
        | some (first :: _) =>
          match first.representasjonspunkt with
          | some rp =>
            match rp.lat, rp.lon with
            | some la, some lo => { a with lat := some la, lon := some lo }
            | _, _ => a
          | none => a
        | _ => a
      else a
    | _ => a

/-- The first result coordinates of a successful response, when both are
present.  This is the success condition of the resolver contract. -/
def goodFirst (resp : GeoResponse) : Option (Rat × Rat) :=
  match resp with
  | GeoResponse.ok status adresser =>
    if status = 200 then
      match adresser with
      | some (first :: _) =>
        match first.representasjonspunkt with
        | some rp =>
          match rp.lat, rp.lon with
          | some la, some lo => some (la, lo)
          | _, _ => none
        | none => none
      | _ => none
    else none
  | _ => none

/-- Modelled from the spec wording of the GeocodeResolver contract, for
comparison with resolve_lat_long: on a successful response with at least
one result carrying both coordinates, the first result's coordinates are
written; under every failure mode no coordinate is set. -/
def geocodeResult (a : Address) (resp : GeoResponse) : Address :=
  match goodFirst resp with
  | some ll => { a with lat := some ll.1, lon := some ll.2 }
  | none => a

/-- Python truthiness of an optional float: absent and exactly zero are
falsy; this is the guard of find_neighbourhood (line 79). -/
def truthyQ (q : Option Rat) : Bool :=
  match q with
  | none => false
  | some v => !(v == 0)

/-- One GeoJSON feature as find_neighbourhood consumes it: geometry none
models a geometry on which shape() raises; props none models a feature
whose properties lookup raises; props (some l) models a readable feature
whose neighbourhood label is l (none when the key is missing).  Containment
of a (lon, lat) point is the polygon's containment predicate. -/
structure Feature where
  geometry : Option ((Rat × Rat) → Bool)
  props : Option (Option String)

/-- One iteration of the feature loop of find_neighbourhood (lines 84-92):
a geometry error skips the feature; a containing feature whose properties
are readable overwrites the neighbourhood; a properties error after the
containment test also skips, keeping earlier writes. -/
def neighStep (p : Rat × Rat) (acc : Address) (f : Feature) : Address :=
  match f.geometry with
  | none => acc
  | some poly =>
    if poly p then
      match f.props with
      | none => acc
      | some l => { acc with neighbourhood := l }
    else acc

/-- Embeds schemas/property.py, Address.find_neighbourhood (lines 67-94):
guard on the truthiness of both coordinates, build the point as
(lon, lat), then fold the feature loop over the address. -/
def find_neighbourhood (a : Address) (features : List Feature) : Address :=
  if truthyQ a.lat && truthyQ a.lon then
    features.foldl (neighStep (a.lon.getD 0, a.lat.getD 0)) a
  else a

/-- The last label written by the feature loop, when any feature containing
the point has readable properties. -/
def wStep (p : Rat × Rat) (acc : Option (Option String)) (f : Feature) :
    Option (Option String) :=
  match f.geometry with
  | none => acc
  | some poly =>
    if poly p then
      match f.props with
      | none => acc
      | some l => some l
    else acc

/-- The label of the last feature that contains the point and is fully
readable, in iteration order. -/
def lastWrite (p : Rat × Rat) (features : List Feature) : Option (Option String) :=
  features.foldl (wStep p) none

/- ------------------------------------------------------------------
   Pipeline ordering (scraper.py lines 97-133)
   ------------------------------------------------------------------ -/
/-- Stable insertion by hash key, the building block of the modelled set
iteration order. -/
def insertByHash (h : String → Nat) (m : RealestateMetadata) :
    List RealestateMetadata → List RealestateMetadata
  | [] => [m]
  | x :: xs =>
    if h x.finn_id ≤ h m.finn_id then x :: insertByHash h m xs else m :: x :: xs

/-- Ordering of a list by hash key. -/
def sortByHash (h : String → Nat) : List RealestateMetadata → List RealestateMetadata
  | [] => []
  | x :: xs => insertByHash h x (sortByHash h xs)

/-- Models the Python expression list(set(property_meta)) of scraper.py
line 124: the set holds the first inserted representative of each finn_id
class, and iteration enumerates them in an order determined by the
elements' string hashes.  CPython randomises the string hash per process,
so the hash function is a parameter here. -/
def pySetList (h : String → Nat) (l : List RealestateMetadata) :
    List RealestateMetadata :=
  sortByHash h (dedupMeta l)

/-- The metadata accumulated by the crawl loop over the pages it visited
(scraper.py lines 97-116): per-page harvests appended in order. -/
def harvestRun (pages : List (List String)) : List RealestateMetadata :=
  pages.foldl (fun acc p => acc ++ find_realestate_meta p) []

/-- The order in which the parsing loop of scraper.py (lines 124-133)
processes listings: the deduplicated harvest in set iteration order. -/
def scrapeOrder (h : String → Nat) (pages : List (List String)) :
    List RealestateMetadata :=
  pySetList h (harvestRun pages)

/- ------------------------------------------------------------------
   Status resolution (parsers/property_page_parser.py, status, lines 103-109)
   ------------------------------------------------------------------ -/
/-- Embeds the status helper: scan the text nodes of the detail region in
order; a nonempty node whose stripped, lowercased text is the sold marker
gives sold; otherwise, including when no text node could be read, the
default is active. -/
def statusOf : List (List Char) → List Char
  | [] => ("active").toList
  | t :: ts =>
    if !t.isEmpty && ((pyStrip t).map Char.toLower == ("solgt").toList) then ("sold").toList
    else statusOf ts

/-- The example address of the spec, used to instantiate the resolver
contract. -/
def addrGeo : Address :=
  { line := some "Jerikoveien 91B", postal_code := some "0575", city := some "Oslo" }

/-- An address with no truthy search component. -/
def addrBlank : Address := { line := none, postal_code := some "", city := none }

/-- A successful geocoding response whose first result carries both
coordinates. -/
def respGeo : GeoResponse :=
  GeoResponse.ok 200
    (some [{ representasjonspunkt := some { lat := some 59, lon := some 10 } }])

/- ------------------------------------------------------------------
   Claim C7 (last containing feature wins; errors are skipped)
   ------------------------------------------------------------------ -/
/-- An address at a zero latitude with a nonzero longitude: both
coordinates present, yet falsy for the guard. -/
def addrZero : Address :=
  { line := none, postal_code := none, city := none, lat := some 0, lon := some 10 }

/-- An address with both coordinates present and nonzero. -/
def addrOslo : Address :=
  { line := none, postal_code := none, city := none, lat := some 59, lon := some 10 }

/-- A feature containing every point, with a readable label. -/
def featWide : Feature :=
  { geometry := some (fun _ => true), props := some (some "Sentrum") }

/-- A feature whose geometry cannot be parsed. -/
def featBad : Feature := { geometry := none, props := some (some "Broken") }

/- ------------------------------------------------------------------
   Helper lemmas about stripLead and character runs
   ------------------------------------------------------------------ -/
theorem stripLead_eq_some_iff (p s r : List Char) :
    stripLead p s = some r ↔ s = p ++ r := by
  induction p generalizing s with
  | nil => simp [stripLead]
  | cons a ps ih =>
    cases s with
    | nil => simp [stripLead]
    | cons c cs =>
      by_cases h : c = a
      · subst h
        simp [stripLead, ih]
      · simp [stripLead, h]

theorem stripLead_cons_ne (a c : Char) (ps cs : List Char) (h : ¬ c = a) :
    stripLead (a :: ps) (c :: cs) = none := by
  simp [stripLead, h]

theorem takeWhile_eq_self_of_all (p : Char → Bool) (l : List Char)
    (h : ∀ c ∈ l, p c = true) : l.takeWhile p = l := by
  induction l with
  | nil => rfl
  | cons a t ih =>
    simp only [List.takeWhile_cons, h a (List.mem_cons_self a t), if_true]
    exact congrArg (List.cons a) (ih (fun c hc => h c (List.mem_cons_of_mem a hc)))

theorem dropWhile_eq_self_of_head (p : Char → Bool) (l : List Char)
    (h : ∀ c, l.head? = some c → p c = false) : l.dropWhile p = l := by
  cases l with
  | nil => rfl
  | cons a t =>
    have ha := h a rfl
    simp [List.dropWhile_cons, ha]

theorem run_takeWhile (p : Char → Bool) (xs ys : List Char)
    (hxs : ∀ c ∈ xs, p c = true) (hys : ∀ c, ys.head? = some c → p c = false) :
    (xs ++ ys).takeWhile p = xs := by
  induction xs with
  | nil =>
    cases ys with
    | nil => rfl
    | cons b t =>
      have hb := hys b rfl
      simp [List.takeWhile_cons, hb]
  | cons a t ih =>
    have ha := hxs a (List.mem_cons_self a t)
    simp only [List.cons_append, List.takeWhile_cons, ha, if_true]
    exact congrArg (List.cons a) (ih (fun c hc => hxs c (List.mem_cons_of_mem a hc)))

theorem run_dropWhile (p : Char → Bool) (xs ys : List Char)
    (hxs : ∀ c ∈ xs, p c = true) (hys : ∀ c, ys.head? = some c → p c = false) :
    (xs ++ ys).dropWhile p = ys := by
  induction xs with
  | nil => exact dropWhile_eq_self_of_head p ys hys
  | cons a t ih =>
    have ha := hxs a (List.mem_cons_self a t)
    simp only [List.cons_append, List.dropWhile_cons, ha, if_true]
    exact ih (fun c hc => hxs c (List.mem_cons_of_mem a hc))

theorem mem_takeWhile_sat (p : Char → Bool) (l : List Char) (c : Char)
    (h : c ∈ l.takeWhile p) : p c = true := by
  induction l with
  | nil => simp [List.takeWhile] at h
  | cons a t ih =>
    by_cases hp : p a = true
    · simp only [List.takeWhile_cons, hp, if_true, List.mem_cons] at h
      cases h with
      | inl he => exact he ▸ hp
      | inr hm => exact ih hm
    · simp only [List.takeWhile_cons, Bool.not_eq_true] at h
      rw [if_neg] at h
      · simp at h
      · simp [hp]

theorem head?_dropWhile_fails (p : Char → Bool) (l : List Char) (c : Char)
    (h : (l.dropWhile p).head? = some c) : p c = false := by
  induction l with
  | nil => simp [List.dropWhile] at h
  | cons a t ih =>
    by_cases hp : p a = true
    · rw [List.dropWhile_cons, if_pos hp] at h
      exact ih h
    · rw [List.dropWhile_cons, if_neg hp] at h
      simp only [List.head?_cons, Option.some.injEq] at h
      subst h
      simpa using hp

theorem filter_eq_self_of_all (p : Char → Bool) (l : List Char)
    (h : ∀ c ∈ l, p c = true) : l.filter p = l := by
  induction l with
  | nil => rfl
  | cons a t ih =>
    simp only [List.filter_cons, h a (List.mem_cons_self a t), if_true]
    exact congrArg (List.cons a) (ih (fun c hc => h c (List.mem_cons_of_mem a hc)))

theorem dropWhile_eq_nil_of_all (p : Char → Bool) (l : List Char)
    (h : ∀ c ∈ l, p c = true) : l.dropWhile p = [] := by
  induction l with
  | nil => rfl
  | cons a t ih =>
    have ha := h a (List.mem_cons_self a t)
    simp only [List.dropWhile_cons, ha, if_true]
    exact ih (fun c hc => h c (List.mem_cons_of_mem a hc))

theorem matchBody_eq_some_iff (s cat code : List Char) :
    matchBody s = some (cat, code) ↔
      cat ≠ [] ∧ code ≠ [] ∧ (∀ c ∈ cat, isAsciiLetter c = true) ∧
      (∀ c ∈ code, Char.isDigit c = true) ∧
      ∃ tl, (tl = [] ∨ tl = ['\n']) ∧ s = SEG1 ++ cat ++ SEG2 ++ code ++ tl := by
  constructor
  · intro h
    unfold matchBody at h
    cases h1 : stripLead SEG1 s with
    | none => rw [h1] at h; exact absurd h (by simp)
    | some r1 =>
      rw [h1] at h
      simp only at h
      by_cases hce : (r1.takeWhile isAsciiLetter).isEmpty
      · rw [if_pos hce] at h; exact absurd h (by simp)
      · rw [if_neg hce] at h
        cases h2 : stripLead SEG2 (r1.dropWhile isAsciiLetter) with
        | none => rw [h2] at h; exact absurd h (by simp)
        | some r3 =>
          rw [h2] at h
          simp only at h
          by_cases hde : (r3.takeWhile Char.isDigit).isEmpty
          · rw [if_pos hde] at h; exact absurd h (by simp)
          · rw [if_neg hde] at h
            obtain ⟨r4, hr4eq⟩ : ∃ r4, r3.dropWhile Char.isDigit = r4 := ⟨_, rfl⟩
            rw [hr4eq] at h
            by_cases hr4 : (r4.isEmpty || r4 == ['\n']) = true
            · rw [if_pos hr4] at h
              have htl : r4 = [] ∨ r4 = ['\n'] := by
                simpa only [Bool.or_eq_true, List.isEmpty_iff, beq_iff_eq] using hr4
              have hcat : r1.takeWhile isAsciiLetter = cat := by
                have := congrArg (fun o => o.map Prod.fst) h
                simpa using this
              have hcode : r3.takeWhile Char.isDigit = code := by
                have := congrArg (fun o => o.map Prod.snd) h
                simpa using this
              have hs1 : s = SEG1 ++ r1 := (stripLead_eq_some_iff _ _ _).mp h1
              have hs2 : r1.dropWhile isAsciiLetter = SEG2 ++ r3 :=
                (stripLead_eq_some_iff _ _ _).mp h2
              have hr3 : r3 = code ++ r4 := by
                have hsplit := List.takeWhile_append_dropWhile (p := Char.isDigit) (l := r3)
                rw [hcode, hr4eq] at hsplit
                exact hsplit.symm
              have hr1 : r1 = cat ++ (SEG2 ++ r3) := by
                have hsplit := List.takeWhile_append_dropWhile (p := isAsciiLetter) (l := r1)
                rw [hcat, hs2] at hsplit
                exact hsplit.symm
              refine ⟨?_, ?_, ?_, ?_, r4, htl, ?_⟩
              · intro hc; rw [← hcat] at hc; simp [hc, List.isEmpty_iff] at hce
              · intro hc; rw [← hcode] at hc; simp [hc, List.isEmpty_iff] at hde
              · intro c hc; rw [← hcat] at hc; exact mem_takeWhile_sat _ _ _ hc
              · intro c hc; rw [← hcode] at hc; exact mem_takeWhile_sat _ _ _ hc
              · rw [hs1, hr1, hr3]; simp [List.append_assoc]
            · rw [if_neg hr4] at h; exact absurd h (by simp)
  · rintro ⟨hc1, hc2, hall, hdig, tl, htl, rfl⟩
    have h1 : stripLead SEG1 (SEG1 ++ cat ++ SEG2 ++ code ++ tl)
        = some (cat ++ SEG2 ++ code ++ tl) :=
      (stripLead_eq_some_iff _ _ _).mpr (by simp [List.append_assoc])
    have hseg2 : SEG2 = '/' :: ("ad.html?finnkode=").toList := by decide
    have hhead : ∀ c, (SEG2 ++ (code ++ tl)).head? = some c → isAsciiLetter c = false := by
      intro c hc
      rw [hseg2, List.cons_append, List.head?_cons, Option.some.injEq] at hc
      subst hc
      decide
    have htake : (cat ++ SEG2 ++ code ++ tl).takeWhile isAsciiLetter = cat := by
      simp only [List.append_assoc]
      exact run_takeWhile _ _ _ hall hhead
    have hdrop : (cat ++ SEG2 ++ code ++ tl).dropWhile isAsciiLetter
        = SEG2 ++ (code ++ tl) := by
      simp only [List.append_assoc]
      exact run_dropWhile _ _ _ hall hhead
    have h2 : stripLead SEG2 (SEG2 ++ (code ++ tl)) = some (code ++ tl) :=
      (stripLead_eq_some_iff _ _ _).mpr rfl
    have hhead2 : ∀ c, tl.head? = some c → Char.isDigit c = false := by
      intro c hc
      rcases htl with h | h <;> rw [h] at hc
      · simp at hc
      · simp only [List.head?_cons, Option.some.injEq] at hc
        subst hc
        decide
    have htake2 : (code ++ tl).takeWhile Char.isDigit = code :=
      run_takeWhile _ _ _ hdig hhead2
    have hdrop2 : (code ++ tl).dropWhile Char.isDigit = tl :=
      run_dropWhile _ _ _ hdig hhead2
    unfold matchBody
    rw [h1]
    simp only
    rw [htake, hdrop, h2]
    simp only
    rw [htake2, hdrop2]
    rw [if_neg (by simp [List.isEmpty_iff, hc1]), if_neg (by simp [List.isEmpty_iff, hc2]),
      if_pos (by rcases htl with h | h <;> rw [h] <;> decide)]

theorem stripLead_origin_seg1 (x : List Char) :
    stripLead ORIGIN (SEG1 ++ x) = none := by
  have h1 : ORIGIN = 'h' :: ("ttps://www.finn.no").toList := by decide
  have h2 : SEG1 = '/' :: ("realestate/").toList := by decide
  rw [h1, h2, List.cons_append]
  exact stripLead_cons_ne _ _ _ _ (by decide)

theorem matchRealestate_eq_some_iff (s cat code : List Char) :
    matchRealestate s = some (cat, code) ↔ realestateHref s cat code := by
  constructor
  · intro h
    unfold matchRealestate at h
    cases h0 : stripLead ORIGIN s with
    | none =>
      rw [h0] at h
      obtain ⟨c1, c2, hl, hd, tl, htl, hs⟩ := (matchBody_eq_some_iff _ _ _).mp h
      exact ⟨c1, c2, hl, hd, tl, htl, Or.inl hs⟩
    | some rest =>
      rw [h0] at h
      simp only at h
      cases hb : matchBody rest with
      | some r =>
        rw [hb] at h
        simp only [Option.some.injEq] at h
        subst h
        obtain ⟨c1, c2, hl, hd, tl, htl, hrest⟩ := (matchBody_eq_some_iff _ _ _).mp hb
        have hs : s = ORIGIN ++ rest := (stripLead_eq_some_iff _ _ _).mp h0
        exact ⟨c1, c2, hl, hd, tl, htl, Or.inr (by rw [hs, hrest])⟩
      | none =>
        rw [hb] at h
        obtain ⟨c1, c2, hl, hd, tl, htl, hs⟩ := (matchBody_eq_some_iff _ _ _).mp h
        exact ⟨c1, c2, hl, hd, tl, htl, Or.inl hs⟩
  · rintro ⟨hc1, hc2, hall, hdig, tl, htl, hdec⟩
    cases hdec with
    | inl hs =>
      subst hs
      unfold matchRealestate
      rw [show SEG1 ++ cat ++ SEG2 ++ code ++ tl
          = SEG1 ++ (cat ++ SEG2 ++ code ++ tl) by simp,
        stripLead_origin_seg1]
      exact (matchBody_eq_some_iff _ _ _).mpr
        ⟨hc1, hc2, hall, hdig, tl, htl, by simp [List.append_assoc]⟩
    | inr hs =>
      subst hs
      unfold matchRealestate
      rw [(stripLead_eq_some_iff ORIGIN _ _).mpr rfl]
      simp only
      rw [(matchBody_eq_some_iff _ _ _).mpr ⟨hc1, hc2, hall, hdig, tl, htl, rfl⟩]

/- ------------------------------------------------------------------
   The harvesting loop as an order-preserving filterMap
   ------------------------------------------------------------------ -/
theorem foldl_harvestStep (hrefs : List String) (acc : List RealestateMetadata) :
    hrefs.foldl harvestStep acc
      = acc ++ hrefs.filterMap
          (fun href => (matchRealestate href.toList).map (fun pc => mkMeta href pc.1 pc.2)) := by
  induction hrefs generalizing acc with
  | nil => simp
  | cons h t ih =>
    simp only [List.foldl_cons, List.filterMap_cons]
    cases hm : matchRealestate h.toList with
    | none => simp only [harvestStep, hm]; rw [ih]; simp
    | some pc => simp only [harvestStep, hm, Option.map_some]; rw [ih]; simp

theorem find_realestate_meta_eq_filterMap (hrefs : List String) :
    find_realestate_meta hrefs
      = hrefs.filterMap
          (fun href => (matchRealestate href.toList).map (fun pc => mkMeta href pc.1 pc.2)) := by
  rw [find_realestate_meta, foldl_harvestStep, List.nil_append]

/- ------------------------------------------------------------------
   Lemmas for the numeric normalizers
   ------------------------------------------------------------------ -/
theorem filter_isDigit_eq_nil (l : List Char) (h : ∀ c ∈ l, Char.isDigit c = false) :
    l.filter Char.isDigit = [] := by
  induction l with
  | nil => rfl
  | cons c cs ih =>
    have hc := h c (List.mem_cons_self c cs)
    simp only [List.filter_cons, hc, Bool.false_eq_true, if_false]
    exact ih (fun x hx => h x (List.mem_cons_of_mem c hx))

theorem searchFloat_eq_none (l : List Char) (h : ∀ c ∈ l, Char.isDigit c = false) :
    searchFloat l = none := by
  induction l with
  | nil => rfl
  | cons c cs ih =>
    have hc := h c (List.mem_cons_self c cs)
    rw [searchFloat]
    simp only [hc, Bool.false_eq_true, if_false]
    exact ih (fun x hx => h x (List.mem_cons_of_mem c hx))

theorem firstDigitRun_eq_none (l : List Char) (h : ∀ c ∈ l, Char.isDigit c = false) :
    firstDigitRun l = none := by
  induction l with
  | nil => rfl
  | cons c cs ih =>
    have hc := h c (List.mem_cons_self c cs)
    rw [firstDigitRun]
    simp only [hc, Bool.false_eq_true, if_false]
    exact ih (fun x hx => h x (List.mem_cons_of_mem c hx))

theorem cleaned_no_digit (cs : List Char) (h : ∀ c ∈ cs, Char.isDigit c = false) :
    ∀ c ∈ (cs.filter floatKeep).map commaToDot, Char.isDigit c = false := by
  intro c hcmem
  rcases List.mem_map.mp hcmem with ⟨b, hb, rfl⟩
  have hbcs : b ∈ cs := List.mem_of_mem_filter hb
  by_cases hb2 : b = ','
  · subst hb2; decide
  · rw [commaToDot, if_neg hb2]; exact h b hbcs

/- ------------------------------------------------------------------
   Lemmas for metadata deduplication
   ------------------------------------------------------------------ -/
theorem any_metaEq_iff (acc : List RealestateMetadata) (m : RealestateMetadata) :
    acc.any (fun x => metaEq x m) = true ↔ m.finn_id ∈ acc.map (fun x => x.finn_id) := by
  rw [List.any_eq_true]
  constructor
  · rintro ⟨x, hx, hxe⟩
    have hfe : x.finn_id = m.finn_id := by simpa [metaEq] using hxe
    exact hfe ▸ List.mem_map_of_mem _ hx
  · intro hmem
    rcases List.mem_map.mp hmem with ⟨x, hx, hfe⟩
    exact ⟨x, hx, by simp [metaEq, hfe]⟩

theorem mem_map_foldl_insertMeta (l acc : List RealestateMetadata) (c : String) :
    (c ∈ (l.foldl insertMeta acc).map (fun m => m.finn_id) ↔
      c ∈ acc.map (fun m => m.finn_id) ∨ c ∈ l.map (fun m => m.finn_id)) := by
  induction l generalizing acc with
  | nil => simp
  | cons m t ih =>
    simp only [List.foldl_cons, List.map_cons, List.mem_cons]
    rw [ih]
    unfold insertMeta
    by_cases hany : acc.any (fun x => metaEq x m) = true
    · rw [if_pos hany]
      have hmem := (any_metaEq_iff acc m).mp hany
      constructor
      · rintro (hc | hc)
        · exact Or.inl hc
        · exact Or.inr (Or.inr hc)
      · rintro (hc | hc | hc)
        · exact Or.inl hc
        · exact Or.inl (hc ▸ hmem)
        · exact Or.inr hc
    · rw [if_neg hany]
      simp only [List.map_append, List.mem_append, List.map_cons, List.map_nil,
        List.mem_cons, List.not_mem_nil, or_false]
      tauto

theorem nodup_map_foldl_insertMeta (l acc : List RealestateMetadata)
    (hacc : (acc.map (fun m => m.finn_id)).Nodup) :
    ((l.foldl insertMeta acc).map (fun m => m.finn_id)).Nodup := by
  induction l generalizing acc with
  | nil => exact hacc
  | cons m t ih =>
    simp only [List.foldl_cons]
    apply ih
    unfold insertMeta
    by_cases hany : acc.any (fun x => metaEq x m) = true
    · rw [if_pos hany]; exact hacc
    · rw [if_neg hany]
      have hnmem : m.finn_id ∉ acc.map (fun x => x.finn_id) := by
        intro hmem
        exact hany ((any_metaEq_iff acc m).mpr hmem)
      simp only [List.map_append, List.map_cons, List.map_nil]
      rw [List.nodup_append]
      exact ⟨hacc, List.nodup_singleton _, by simpa [List.disjoint_singleton] using hnmem⟩

theorem foldl_insertMeta_of_nodup (l acc : List RealestateMetadata)
    (h : (((acc ++ l)).map (fun m => m.finn_id)).Nodup) :
    l.foldl insertMeta acc = acc ++ l := by
  induction l generalizing acc with
  | nil => simp
  | cons m t ih =>
    simp only [List.foldl_cons]
    have hnmem : m.finn_id ∉ acc.map (fun x => x.finn_id) := by
      intro hmem
      have hsub : (acc.map (fun x => x.finn_id) ++ [m.finn_id]).Sublist
          ((acc ++ m :: t).map (fun x => x.finn_id)) := by
        rw [List.map_append, List.map_cons]
        exact List.Sublist.append_left ((List.nil_sublist _).cons₂ _) _
      have hnd := h.sublist hsub
      rw [List.nodup_append] at hnd
      exact absurd hmem (by simpa using hnd.2.2)
    have hstep : insertMeta acc m = acc ++ [m] := by
      unfold insertMeta
      rw [if_neg (fun hany => hnmem ((any_metaEq_iff acc m).mp hany))]
    rw [hstep]
    have hre : acc ++ m :: t = (acc ++ [m]) ++ t := by simp
    rw [ih (acc ++ [m]) (by rw [← hre]; exact h), ← hre]

theorem nodup_dedupMeta (l : List RealestateMetadata) :
    ((dedupMeta l).map (fun m => m.finn_id)).Nodup :=
  nodup_map_foldl_insertMeta l [] (by simp)

theorem dedupMeta_idem (l : List RealestateMetadata) :
    dedupMeta (dedupMeta l) = dedupMeta l := by
  have := foldl_insertMeta_of_nodup (dedupMeta l) []
    (by simpa using nodup_dedupMeta l)
  simpa [dedupMeta] using this

/- ------------------------------------------------------------------
   Claim C1 (code bug in the pagination stop condition)
   ------------------------------------------------------------------ -/
/-- C1: the crawl is claimed to terminate when the current page indicator
equals the maximum page indicator.  The code instead computes
max_page >= current_page, which holds at every reachable page, so the
pagination check never breaks the loop while paging forward; in particular
the loop does not stop at current = max (it continues and only a configured
page cap or the exception path ends the crawl).  This theorem documents the
bug: while the current page has not passed the maximum, has_more_pages is
always true and, with no cap configured, the loop body always decides to
continue. -/
theorem pagination_never_stops (currentPage maxPage : Nat)
    (h : currentPage ≤ maxPage) :
    has_more_pages currentPage maxPage = true
  ∧ loopDecision currentPage maxPage none = LoopDecision.continueNext := by
  constructor
  · simpa [has_more_pages]
  · simp [loopDecision, has_more_pages, h]

/-- Witness: on the last page, current = max = 3, the code still reports
more pages and continues. -/
theorem pagination_never_stops_witness :
    (3 : Nat) ≤ 3
  ∧ (has_more_pages 3 3 = true ∧ loopDecision 3 3 none = LoopDecision.continueNext) :=
  ⟨by decide, pagination_never_stops 3 3 (by decide)⟩

/- ------------------------------------------------------------------
   Claim C2 (harvester contract, amended on the emitted URL)
   ------------------------------------------------------------------ -/
/-- C2 counterexample: for an href that is already prefixed by the absolute
origin (a form the pattern explicitly accepts), the emitted entry's URL is
the origin prepended again, which is not the absolute listing URL. -/
theorem harvester_url_doubling :
    (find_realestate_meta
        ["https://www.finn.no/realestate/homes/ad.html?finnkode=123456789"]).map
        RealestateMetadata.url
      = ["https://www.finn.nohttps://www.finn.no/realestate/homes/ad.html?finnkode=123456789"]
  ∧ ("https://www.finn.nohttps://www.finn.no/realestate/homes/ad.html?finnkode=123456789" : String)
      ≠ "https://www.finn.no/realestate/homes/ad.html?finnkode=123456789" := by
  constructor
  · decide
  · decide

/-- C2 (amended): the harvester emits an entry exactly for hrefs matching
the listing pattern (fixed segments around a nonempty letter category and a
nonempty digit code, the absolute origin optionally in front); each entry
carries the href with the origin prepended (the absolute listing URL when
the href was site-relative), the matched category and the matched digit
string; non-matching hrefs are skipped without error and output follows
input order, the whole loop being an order-preserving filterMap. -/
theorem harvester_contract (hrefs : List String) (s cat code : List Char)
    (href : String) (pc : List Char × List Char)
    (hm : matchRealestate href.toList = some pc) :
    find_realestate_meta hrefs
      = hrefs.filterMap
          (fun h2 => (matchRealestate h2.toList).map (fun q => mkMeta h2 q.1 q.2))
  ∧ (matchRealestate s = some (cat, code) ↔ realestateHref s cat code)
  ∧ (mkMeta href pc.1 pc.2).url = "https://www.finn.no" ++ href
  ∧ (mkMeta href pc.1 pc.2).category = pc.1.asString
  ∧ (mkMeta href pc.1 pc.2).finn_id = pc.2.asString
  ∧ mkMeta href pc.1 pc.2 ∈ find_realestate_meta [href] := by
  refine ⟨find_realestate_meta_eq_filterMap hrefs,
    matchRealestate_eq_some_iff s cat code, rfl, rfl, rfl, ?_⟩
  rw [find_realestate_meta_eq_filterMap]
  simp only [List.filterMap_cons, List.filterMap_nil, hm, Option.map_some]
  exact List.mem_cons_self _ _

/-- Witness: the well-formed relative href of the spec example matches with
category homes and code 123456789 and is emitted; the instantiation also
covers a non-matching search URL being skipped. -/
theorem harvester_contract_witness :
    matchRealestate ("/realestate/homes/ad.html?finnkode=123456789").toList
        = some (("homes").toList, ("123456789").toList)
  ∧ (find_realestate_meta
        ["/realestate/homes/ad.html?finnkode=123456789", "/realestate/homes/search.html"]
      = ["/realestate/homes/ad.html?finnkode=123456789",
          "/realestate/homes/search.html"].filterMap
          (fun h2 => (matchRealestate h2.toList).map (fun q => mkMeta h2 q.1 q.2))
  ∧ (matchRealestate ("/realestate/homes/ad.html?finnkode=123456789").toList
        = some (("homes").toList, ("123456789").toList)
      ↔ realestateHref ("/realestate/homes/ad.html?finnkode=123456789").toList
          ("homes").toList ("123456789").toList)
  ∧ (mkMeta "/realestate/homes/ad.html?finnkode=123456789" ("homes").toList
        ("123456789").toList).url
      = "https://www.finn.no" ++ "/realestate/homes/ad.html?finnkode=123456789"
  ∧ (mkMeta "/realestate/homes/ad.html?finnkode=123456789" ("homes").toList
        ("123456789").toList).category = ("homes").toList.asString
  ∧ (mkMeta "/realestate/homes/ad.html?finnkode=123456789" ("homes").toList
        ("123456789").toList).finn_id = ("123456789").toList.asString
  ∧ mkMeta "/realestate/homes/ad.html?finnkode=123456789" ("homes").toList
        ("123456789").toList
      ∈ find_realestate_meta ["/realestate/homes/ad.html?finnkode=123456789"]) :=
  ⟨by decide,
    harvester_contract
      ["/realestate/homes/ad.html?finnkode=123456789", "/realestate/homes/search.html"]
      ("/realestate/homes/ad.html?finnkode=123456789").toList
      ("homes").toList ("123456789").toList
      "/realestate/homes/ad.html?finnkode=123456789"
      (("homes").toList, ("123456789").toList)
      (by decide)⟩

/- ------------------------------------------------------------------
   Claim C4 (numeric normalizers are total and absent on no digits)
   ------------------------------------------------------------------ -/
/-- C4 counterexample: safe-int mode is not exception-free: a digit run one
character longer than the integer-string conversion limit makes the
unguarded int() call raise ValueError; integer mode reaches the same limit
but its except branch turns the error into an absent result. -/
theorem safe_int_overflow_value_error :
    to_int_safe (some (List.replicate 4301 '7')) = PyResult.valueError
  ∧ to_int (some (List.replicate 4301 '7')) = none := by
  have hmem : ∀ c ∈ List.replicate 4301 '7', Char.isDigit c = true := by
    intro c hc
    rw [List.eq_of_mem_replicate hc]
    decide
  have hlen : (4301 : Nat) = 4300 + 1 := rfl
  have hrep : List.replicate 4301 '7' = '7' :: List.replicate 4300 '7' := by
    rw [hlen, List.replicate_succ]
  have htw : (List.replicate 4301 '7').takeWhile Char.isDigit
      = List.replicate 4301 '7' := takeWhile_eq_self_of_all _ _ hmem
  have hrun : firstDigitRun (List.replicate 4301 '7')
      = some (List.replicate 4301 '7') := by
    rw [hrep, firstDigitRun, if_pos (by decide)]
    rw [← hrep, htw]
  have hfil : (List.replicate 4301 '7').filter Char.isDigit
      = List.replicate 4301 '7' := filter_eq_self_of_all _ _ hmem
  have hne : ¬ ((List.replicate 4301 '7').isEmpty = true) := by
    intro h
    rw [List.isEmpty_iff] at h
    have hl := congrArg List.length h
    rw [List.length_replicate] at hl
    exact absurd hl (by decide)
  have hbig : (List.replicate 4301 '7').length > INT_MAX_STR_DIGITS := by
    rw [List.length_replicate]
    decide
  constructor
  · simp only [to_int_safe]
    rw [if_neg hne, hrun]
    show (if (List.replicate 4301 '7').length > INT_MAX_STR_DIGITS then PyResult.valueError
      else PyResult.ok (some (natOfDigits (List.replicate 4301 '7')))) = PyResult.valueError
    rw [if_pos hbig]
  · simp only [to_int]
    rw [if_neg hne, hfil, if_neg hne, if_pos hbig]

/-- C4 (amended): integer mode and decimal mode are total (integer mode
catches the ValueError that int() raises past the conversion limit and
returns an absent result, and float() has no digit-count limit), and all
three modes return an absent result on an absent input, the empty string,
and any string with no digit; safe-int mode, whose int() call has no
exception handler, raises ValueError exactly when the leftmost digit run
is longer than the conversion limit.  Digits here are the ASCII fragment
of the Unicode decimal-digit class, on which the two coincide, so the
no-digit statements carry an ASCII hypothesis. -/
theorem numeric_normalizer_safe (cs ds : List Char)
    (hA : ∀ c ∈ cs, c.toNat < 128)
    (h : ∀ c ∈ cs, Char.isDigit c = false) :
    (to_int none = none ∧ to_float_m2 none = none
      ∧ to_int_safe none = PyResult.ok none)
  ∧ (to_int (some []) = none ∧ to_float_m2 (some []) = none
      ∧ to_int_safe (some []) = PyResult.ok none)
  ∧ (to_int (some cs) = none ∧ to_float_m2 (some cs) = none
      ∧ to_int_safe (some cs) = PyResult.ok none)
  ∧ (to_int_safe (some ds) = PyResult.valueError ↔
      ∃ r, firstDigitRun ds = some r ∧ r.length > INT_MAX_STR_DIGITS)
  ∧ ((ds.filter Char.isDigit).length > INT_MAX_STR_DIGITS →
      to_int (some ds) = none) := by
  refine ⟨⟨rfl, rfl, rfl⟩, ⟨rfl, rfl, rfl⟩, ⟨?_, ?_, ?_⟩, ?_, ?_⟩
  · by_cases he : cs.isEmpty
    · simp [to_int, he]
    · simp [to_int, he, filter_isDigit_eq_nil cs h]
  · by_cases he : cs.isEmpty
    · simp [to_float_m2, he]
    · simp [to_float_m2, he, searchFloat_eq_none _ (cleaned_no_digit cs h)]
  · by_cases he : cs.isEmpty
    · simp [to_int_safe, he]
    · simp [to_int_safe, he, firstDigitRun_eq_none cs h]
  · constructor
    · intro hv
      simp only [to_int_safe] at hv
      split at hv
      · exact absurd hv (by decide)
      · split at hv
        · exact absurd hv (by decide)
        · split at hv
          · rename_i r heq hlen
            exact ⟨r, heq, hlen⟩
          · simp at hv
    · rintro ⟨r, hf, hl⟩
      have hne : ¬ (ds.isEmpty = true) := by
        rw [List.isEmpty_iff]
        intro hnil
        rw [hnil] at hf
        simp [firstDigitRun] at hf
      simp only [to_int_safe]
      rw [if_neg hne, hf]
      show (if r.length > INT_MAX_STR_DIGITS then PyResult.valueError
        else PyResult.ok (some (natOfDigits r))) = PyResult.valueError
      rw [if_pos hl]
  · intro hbig
    have hne : ¬ (ds.isEmpty = true) := by
      rw [List.isEmpty_iff]
      intro hnil
      rw [hnil] at hbig
      exact absurd hbig (by decide)
    have hfe : ¬ ((ds.filter Char.isDigit).isEmpty = true) := by
      rw [List.isEmpty_iff]
      intro hnil
      rw [hnil] at hbig
      exact absurd hbig (by decide)
    simp only [to_int]
    rw [if_neg hne, if_neg hfe, if_pos hbig]

/-- Witness: the punctuation-and-letters ASCII string N/A has no digit and
all three modes give an absent result on it; the digit string 123 shows
the exception characterisation satisfiable on the no-exception side. -/
theorem numeric_normalizer_safe_witness :
    (∀ c ∈ ("N/A").toList, c.toNat < 128)
  ∧ (∀ c ∈ ("N/A").toList, Char.isDigit c = false)
  ∧ ((to_int none = none ∧ to_float_m2 none = none
      ∧ to_int_safe none = PyResult.ok none)
  ∧ (to_int (some []) = none ∧ to_float_m2 (some []) = none
      ∧ to_int_safe (some []) = PyResult.ok none)
  ∧ (to_int (some ("N/A").toList) = none ∧ to_float_m2 (some ("N/A").toList) = none
      ∧ to_int_safe (some ("N/A").toList) = PyResult.ok none)
  ∧ (to_int_safe (some ("123").toList) = PyResult.valueError ↔
      ∃ r, firstDigitRun ("123").toList = some r ∧ r.length > INT_MAX_STR_DIGITS)
  ∧ ((("123").toList.filter Char.isDigit).length > INT_MAX_STR_DIGITS →
      to_int (some ("123").toList) = none)) :=
  ⟨by decide, by decide,
    numeric_normalizer_safe ("N/A").toList ("123").toList (by decide) (by decide)⟩

/- ------------------------------------------------------------------
   Claim C5 (identity by finn code; set semantics of deduplication)
   ------------------------------------------------------------------ -/
/-- C5: metadata equality holds exactly when the finn codes are equal (URL
and category are irrelevant), hashing depends only on the finn code, and
the set-semantics deduplication keeps exactly one entry per distinct finn
code: the deduplicated codes are nodup, a code survives iff it occurred,
and deduplicating again changes nothing. -/
theorem metadata_identity_dedup (a b : RealestateMetadata)
    (l : List RealestateMetadata) (hab : a.finn_id = b.finn_id) :
    (metaEq a b = true ↔ a.finn_id = b.finn_id)
  ∧ metaHash a = metaHash b
  ∧ ((dedupMeta l).map (fun m => m.finn_id)).Nodup
  ∧ (∀ c, c ∈ (dedupMeta l).map (fun m => m.finn_id) ↔ c ∈ l.map (fun m => m.finn_id))
  ∧ dedupMeta (dedupMeta l) = dedupMeta l := by
  refine ⟨by simp [metaEq], by simp [metaHash, hab], nodup_dedupMeta l, ?_, dedupMeta_idem l⟩
  intro c
  have := mem_map_foldl_insertMeta l [] c
  simpa [dedupMeta] using this

/-- Witness: two entries with the same finn code but different URL casing
and category deduplicate to one entry. -/
theorem metadata_identity_dedup_witness :
    (({ url := "https://www.finn.no/a", category := "homes", finn_id := "123" }
        : RealestateMetadata).finn_id
      = ({ url := "HTTPS://WWW.FINN.NO/A", category := "other", finn_id := "123" }
        : RealestateMetadata).finn_id)
  ∧ ((metaEq { url := "https://www.finn.no/a", category := "homes", finn_id := "123" }
        { url := "HTTPS://WWW.FINN.NO/A", category := "other", finn_id := "123" } = true
      ↔ ({ url := "https://www.finn.no/a", category := "homes", finn_id := "123" }
          : RealestateMetadata).finn_id
        = ({ url := "HTTPS://WWW.FINN.NO/A", category := "other", finn_id := "123" }
          : RealestateMetadata).finn_id)
  ∧ metaHash { url := "https://www.finn.no/a", category := "homes", finn_id := "123" }
      = metaHash { url := "HTTPS://WWW.FINN.NO/A", category := "other", finn_id := "123" }
  ∧ ((dedupMeta
        [{ url := "https://www.finn.no/a", category := "homes", finn_id := "123" },
          { url := "HTTPS://WWW.FINN.NO/A", category := "other", finn_id := "123" }]).map
        (fun m => m.finn_id)).Nodup
  ∧ (∀ c, c ∈ (dedupMeta
        [{ url := "https://www.finn.no/a", category := "homes", finn_id := "123" },
          { url := "HTTPS://WWW.FINN.NO/A", category := "other", finn_id := "123" }]).map
        (fun m => m.finn_id)
      ↔ c ∈ [({ url := "https://www.finn.no/a", category := "homes", finn_id := "123" }
            : RealestateMetadata),
          { url := "HTTPS://WWW.FINN.NO/A", category := "other", finn_id := "123" }].map
        (fun m => m.finn_id))
  ∧ dedupMeta (dedupMeta
        [{ url := "https://www.finn.no/a", category := "homes", finn_id := "123" },
          { url := "HTTPS://WWW.FINN.NO/A", category := "other", finn_id := "123" }])
      = dedupMeta
        [{ url := "https://www.finn.no/a", category := "homes", finn_id := "123" },
          { url := "HTTPS://WWW.FINN.NO/A", category := "other", finn_id := "123" }]) :=
  ⟨rfl, metadata_identity_dedup _ _ _ rfl⟩

/- ------------------------------------------------------------------
   Claim C10 (status is always sold or active, never unknown)
   ------------------------------------------------------------------ -/
/-- C10: the status helper, whose result the page parser assigns verbatim
to the record's status field, returns either sold or active for every list
of detail-region text nodes, never the unknown value of the data model; in
particular with no readable text node the default is active. -/
theorem status_never_unknown (texts : List (List Char)) :
    (statusOf texts = ("sold").toList ∨ statusOf texts = ("active").toList)
  ∧ statusOf texts ≠ ("unknown").toList
  ∧ statusOf [] = ("active").toList := by
  have main : statusOf texts = ("sold").toList ∨ statusOf texts = ("active").toList := by
    induction texts with
    | nil => exact Or.inr rfl
    | cons t ts ih =>
      by_cases hc :
          (!t.isEmpty && ((pyStrip t).map Char.toLower == ("solgt").toList)) = true
      · left; rw [statusOf, if_pos hc]
      · rw [statusOf, if_neg hc]; exact ih
  refine ⟨main, ?_, rfl⟩
  rcases main with hm | hm <;> rw [hm] <;> decide

/- ------------------------------------------------------------------
   Lemmas for the neighbourhood fold
   ------------------------------------------------------------------ -/
theorem neighStep_lat_lon (p : Rat × Rat) (x : Address) (f : Feature) :
    (neighStep p x f).lat = x.lat ∧ (neighStep p x f).lon = x.lon := by
  unfold neighStep
  cases hg : f.geometry with
  | none => exact ⟨rfl, rfl⟩
  | some poly =>
    by_cases hp : poly p = true
    · cases hpr : f.props with
      | none => simp [hp, hpr]
      | some l => simp [hp, hpr]
    · simp [hp]

theorem foldl_neighStep_lat_lon (fs : List Feature) (p : Rat × Rat) (x : Address) :
    (fs.foldl (neighStep p) x).lat = x.lat ∧ (fs.foldl (neighStep p) x).lon = x.lon := by
  induction fs generalizing x with
  | nil => exact ⟨rfl, rfl⟩
  | cons f t ih =>
    simp only [List.foldl_cons]
    have hs := neighStep_lat_lon p x f
    have ht := ih (neighStep p x f)
    exact ⟨ht.1.trans hs.1, ht.2.trans hs.2⟩

theorem wfold_absorb (t : List Feature) (p : Rat × Rat) (acc : Option (Option String)) :
    t.foldl (wStep p) acc
      = match t.foldl (wStep p) none with
        | some l => some l
        | none => acc := by
  induction t generalizing acc with
  | nil => rfl
  | cons f t ih =>
    simp only [List.foldl_cons]
    rw [ih (wStep p acc f), ih (wStep p none f)]
    cases hw : t.foldl (wStep p) none with
    | some l => rfl
    | none =>
      unfold wStep
      cases hg : f.geometry with
      | none => rfl
      | some poly =>
        by_cases hp : poly p = true
        · cases hpr : f.props with
          | none => simp [hp, hpr]
          | some l => simp [hp, hpr]
        · simp [hp]

theorem foldl_neighStep_neighbourhood (fs : List Feature) (p : Rat × Rat) (x : Address) :
    (fs.foldl (neighStep p) x).neighbourhood
      = match fs.foldl (wStep p) none with
        | some l => l
        | none => x.neighbourhood := by
  induction fs generalizing x with
  | nil => rfl
  | cons f t ih =>
    simp only [List.foldl_cons]
    rw [ih (neighStep p x f), wfold_absorb t p (wStep p none f)]
    cases hw : t.foldl (wStep p) none with
    | some l => rfl
    | none =>
      unfold neighStep wStep
      cases hg : f.geometry with
      | none => rfl
      | some poly =>
        by_cases hp : poly p = true
        · cases hpr : f.props with
          | none => simp [hp, hpr]
          | some l => simp [hp, hpr]
        · simp [hp]

theorem neighStep_skips (p : Rat × Rat) (x : Address) (f : Feature)
    (hf : f.geometry = none ∨ f.props = none) : neighStep p x f = x := by
  unfold neighStep
  cases hg : f.geometry with
  | none => rfl
  | some poly =>
    rcases hf with hg2 | hpr
    · rw [hg] at hg2; exact absurd hg2 (by simp)
    · by_cases hp : poly p = true
      · simp [hp, hpr]
      · simp [hp]

theorem truthyQ_isSome (q : Option Rat) (h : truthyQ q = true) : q.isSome = true := by
  cases q with
  | none => simp [truthyQ] at h
  | some v => rfl

/- ------------------------------------------------------------------
   Lemmas for the geocode resolver
   ------------------------------------------------------------------ -/
theorem resolve_lat_long_cases (b : Address) (resp : GeoResponse) :
    resolve_lat_long b resp = b ∨
      ∃ la lo, resolve_lat_long b resp = { b with lat := some la, lon := some lo } := by
  unfold resolve_lat_long
  by_cases hw : searchWorthy b = true
  · simp only [hw, Bool.not_true, Bool.false_eq_true, if_false]
    repeat' split
    all_goals first
      | exact Or.inr ⟨_, _, rfl⟩
      | exact Or.inl rfl
  · simp only [Bool.not_eq_true] at hw
    simp [hw]

/- ------------------------------------------------------------------
   Claim C6 (geocode resolver contract)
   ------------------------------------------------------------------ -/
/-- C6: for an address with at least one truthy search component, the
resolver writes the first result's coordinates exactly when the response
is a 200 whose first result carries both coordinates, and leaves the
address fully unchanged under every other outcome (non-success status,
missing or empty result array, missing representation point or coordinate,
network error, timeout, malformed body); the comparison target
geocodeResult is written from the spec's contract.  An address with no
truthy component never issues a request and is unchanged. -/
theorem geocode_resolver_contract (a b : Address) (resp : GeoResponse)
    (ha : searchWorthy a = true) (hb : searchWorthy b = false) :
    resolve_lat_long a resp = geocodeResult a resp
  ∧ resolve_lat_long b resp = b := by
  constructor
  · unfold resolve_lat_long geocodeResult goodFirst
    simp only [ha, Bool.not_true, Bool.false_eq_true, if_false]
    repeat' split
    all_goals first
      | rfl
      | (rename_i hp; injection hp with hp; subst hp; rfl)
      | simp_all
  · unfold resolve_lat_long
    simp [hb]

/-- Witness: the resolver contract instantiated at the spec's example
address, an all-absent address and a successful response. -/
theorem geocode_resolver_contract_witness :
    searchWorthy addrGeo = true
  ∧ searchWorthy addrBlank = false
  ∧ (resolve_lat_long addrGeo respGeo = geocodeResult addrGeo respGeo
      ∧ resolve_lat_long addrBlank respGeo = addrBlank) :=
  ⟨by decide, by decide,
    geocode_resolver_contract addrGeo addrBlank respGeo (by decide) (by decide)⟩

/-- C7 counterexample: an Address carrying both coordinates, one of them
exactly zero, is not tested against a feature that contains its point: the
neighbourhood stays absent although a containing feature with a label
exists, contradicting the claim read over every coordinate-carrying
address. -/
theorem neighbourhood_zero_coordinate_cex :
    addrZero.lat.isSome = true
  ∧ addrZero.lon.isSome = true
  ∧ (featWide.geometry.getD (fun _ => false)) (addrZero.lon.getD 0, addrZero.lat.getD 0) = true
  ∧ (find_neighbourhood addrZero [featWide]).neighbourhood = none := by
  refine ⟨rfl, rfl, rfl, ?_⟩
  have hfix : find_neighbourhood addrZero [featWide] = addrZero := by
    unfold find_neighbourhood
    rw [if_neg (by decide)]
  rw [hfix]
  rfl

/-- C7 (amended): for every Address whose coordinates are both present and
nonzero (the truthiness guard, see the zero-coordinate claim), the loop
tests the point (lon, lat) against the features in iteration order and the
resulting neighbourhood is the label written by the last containing
readable feature, the prior value when no feature wrote; a feature whose
geometry or properties cannot be read is skipped without affecting the
others, here stated as invariance under inserting such a feature
anywhere. -/
theorem neighbourhood_last_write (a : Address) (fs fs1 fs2 : List Feature)
    (f : Feature) (h1 : truthyQ a.lat = true) (h2 : truthyQ a.lon = true)
    (hf : f.geometry = none ∨ f.props = none) :
    (find_neighbourhood a fs).neighbourhood
      = (lastWrite (a.lon.getD 0, a.lat.getD 0) fs).getD a.neighbourhood
  ∧ find_neighbourhood a (fs1 ++ f :: fs2) = find_neighbourhood a (fs1 ++ fs2) := by
  have hguard : (truthyQ a.lat && truthyQ a.lon) = true := by rw [h1, h2]; rfl
  constructor
  · unfold find_neighbourhood lastWrite
    rw [if_pos hguard]
    rw [foldl_neighStep_neighbourhood]
    cases fs.foldl (wStep (a.lon.getD 0, a.lat.getD 0)) none with
    | none => rfl
    | some l => rfl
  · unfold find_neighbourhood
    rw [if_pos hguard, if_pos hguard, List.foldl_append, List.foldl_append,
      List.foldl_cons, neighStep_skips _ _ _ hf]

/-- Witness: a nonzero-coordinate address against one all-containing
feature, and invariance under inserting a feature with unreadable
geometry. -/
theorem neighbourhood_last_write_witness :
    truthyQ addrOslo.lat = true
  ∧ truthyQ addrOslo.lon = true
  ∧ (featBad.geometry = none ∨ featBad.props = none)
  ∧ ((find_neighbourhood addrOslo [featWide]).neighbourhood
      = (lastWrite (addrOslo.lon.getD 0, addrOslo.lat.getD 0) [featWide]).getD
          addrOslo.neighbourhood
    ∧ find_neighbourhood addrOslo ([] ++ featBad :: [featWide])
      = find_neighbourhood addrOslo ([] ++ [featWide])) :=
  ⟨by decide, by decide, Or.inl rfl,
    neighbourhood_last_write addrOslo [featWide] [] [featWide] featBad
      (by decide) (by decide) (Or.inl rfl)⟩

/- ------------------------------------------------------------------
   Claim C9 (zero coordinates are treated as missing; invariant kept)
   ------------------------------------------------------------------ -/
/-- C9: when both coordinates are present but either is exactly zero, the
truthiness guard makes find_neighbourhood return the address unchanged, so
no containment test runs and the neighbourhood stays absent; and both
enrichment operations preserve the data-model invariant that a set
neighbourhood implies both coordinates set. -/
theorem zero_coordinate_guard (a b : Address) (fs gs : List Feature)
    (resp : GeoResponse)
    (ha1 : a.lat.isSome = true) (ha2 : a.lon.isSome = true)
    (h0 : a.lat = some 0 ∨ a.lon = some 0)
    (hbinv : b.neighbourhood.isSome = true →
      b.lat.isSome = true ∧ b.lon.isSome = true) :
    find_neighbourhood a fs = a
  ∧ ((find_neighbourhood b gs).neighbourhood.isSome = true →
      (find_neighbourhood b gs).lat.isSome = true
        ∧ (find_neighbourhood b gs).lon.isSome = true)
  ∧ ((resolve_lat_long b resp).neighbourhood.isSome = true →
      (resolve_lat_long b resp).lat.isSome = true
        ∧ (resolve_lat_long b resp).lon.isSome = true) := by
  refine ⟨?_, ?_, ?_⟩
  · unfold find_neighbourhood
    rcases h0 with h | h
    · rw [h]
      simp [truthyQ]
    · rw [h]
      simp [truthyQ]
  · by_cases hg : (truthyQ b.lat && truthyQ b.lon) = true
    · intro _
      unfold find_neighbourhood
      rw [if_pos hg]
      have hpres := foldl_neighStep_lat_lon gs (b.lon.getD 0, b.lat.getD 0) b
      rw [hpres.1, hpres.2]
      have hsplit : truthyQ b.lat = true ∧ truthyQ b.lon = true := by
        simpa [Bool.and_eq_true] using hg
      exact ⟨truthyQ_isSome b.lat hsplit.1, truthyQ_isSome b.lon hsplit.2⟩
    · unfold find_neighbourhood
      rw [if_neg hg]
      exact hbinv
  · rcases resolve_lat_long_cases b resp with h | ⟨la, lo, h⟩
    · rw [h]; exact hbinv
    · rw [h]
      intro _
      exact ⟨rfl, rfl⟩

/-- Witness: the zero-latitude address of the counterexample and a plain
address with nothing set. -/
theorem zero_coordinate_guard_witness :
    addrZero.lat.isSome = true
  ∧ addrZero.lon.isSome = true
  ∧ (addrZero.lat = some 0 ∨ addrZero.lon = some 0)
  ∧ (find_neighbourhood addrZero [featWide] = addrZero
    ∧ ((find_neighbourhood addrBlank [featWide]).neighbourhood.isSome = true →
        (find_neighbourhood addrBlank [featWide]).lat.isSome = true
          ∧ (find_neighbourhood addrBlank [featWide]).lon.isSome = true)
    ∧ ((resolve_lat_long addrBlank respGeo).neighbourhood.isSome = true →
        (resolve_lat_long addrBlank respGeo).lat.isSome = true
          ∧ (resolve_lat_long addrBlank respGeo).lon.isSome = true)) :=
  ⟨rfl, rfl, Or.inl rfl,
    zero_coordinate_guard addrZero addrBlank [featWide] [featWide] respGeo
      rfl rfl (Or.inl rfl) (by decide)⟩

/- ------------------------------------------------------------------
   Claim C8 (ordering after deduplication)
   ------------------------------------------------------------------ -/
theorem find_realestate_meta_append (l1 l2 : List String) :
    find_realestate_meta (l1 ++ l2)
      = find_realestate_meta l1 ++ find_realestate_meta l2 := by
  simp [find_realestate_meta_eq_filterMap, List.filterMap_append]

theorem foldl_harvestRun (pages : List (List String))
    (acc : List RealestateMetadata) :
    pages.foldl (fun acc p => acc ++ find_realestate_meta p) acc
      = acc ++ find_realestate_meta pages.flatten := by
  induction pages generalizing acc with
  | nil => simp [find_realestate_meta]
  | cons p t ih =>
    simp only [List.foldl_cons, List.flatten_cons]
    rw [ih, find_realestate_meta_append, List.append_assoc]

/-- C8 (amended): with the string-hash function fixed (one process, one
hash seed), the processing order after deduplication is a function of the
concatenated stream of harvested hrefs alone: two crawls whose page
sequences concatenate to the same href stream process the listings in the
same order, whatever the page boundaries. -/
theorem pipeline_order_deterministic (h : String → Nat)
    (pages1 pages2 : List (List String))
    (hsame : pages1.flatten = pages2.flatten) :
    scrapeOrder h pages1 = scrapeOrder h pages2 := by
  unfold scrapeOrder pySetList harvestRun
  rw [foldl_harvestRun, foldl_harvestRun, hsame]

/-- Witness: the same two listing hrefs given as one page or as two pages
produce the same processing order. -/
theorem pipeline_order_deterministic_witness :
    ([["/realestate/homes/ad.html?finnkode=1",
        "/realestate/homes/ad.html?finnkode=22"]].flatten
      = [["/realestate/homes/ad.html?finnkode=1"],
          ["/realestate/homes/ad.html?finnkode=22"]].flatten)
  ∧ scrapeOrder (fun s => s.length)
      [["/realestate/homes/ad.html?finnkode=1",
        "/realestate/homes/ad.html?finnkode=22"]]
    = scrapeOrder (fun s => s.length)
      [["/realestate/homes/ad.html?finnkode=1"],
        ["/realestate/homes/ad.html?finnkode=22"]] :=
  ⟨by decide,
    pipeline_order_deterministic (fun s => s.length)
      [["/realestate/homes/ad.html?finnkode=1",
        "/realestate/homes/ad.html?finnkode=22"]]
      [["/realestate/homes/ad.html?finnkode=1"],
        ["/realestate/homes/ad.html?finnkode=22"]]
      (by decide)⟩

/-- C8 counterexample: the same crawl input under two different string-hash
functions (CPython draws a fresh hash seed per process, and the metadata
hash is the hash of the finn code string) yields two different record
orders, so two runs of the pipeline need not produce the records in the
same order. -/
theorem pipeline_order_hash_dependent :
    scrapeOrder (fun s => s.length)
        [["/realestate/homes/ad.html?finnkode=1",
          "/realestate/homes/ad.html?finnkode=22"]]
      ≠ scrapeOrder (fun s => 100 - s.length)
        [["/realestate/homes/ad.html?finnkode=1",
          "/realestate/homes/ad.html?finnkode=22"]] := by
  decide

/- ------------------------------------------------------------------
   Lemmas for the address splitter
   ------------------------------------------------------------------ -/
theorem ne_comma_of_pySpace (c : Char) (h : isPySpace c = true) : ¬ c = ',' := by
  intro he
  subst he
  exact absurd h (by decide)

theorem ne_comma_of_digit (c : Char) (h : Char.isDigit c = true) : ¬ c = ',' := by
  intro he
  subst he
  exact absurd h (by decide)

theorem pySplit_no_sep (sep : Char) (s : List Char) (h : sep ∉ s) :
    pySplit sep s = [s] := by
  induction s with
  | nil => rfl
  | cons c cs ih =>
    have hc : ¬ c = sep := fun he => h (he ▸ List.mem_cons_self c cs)
    rw [pySplit, if_neg hc, ih (fun hm => h (List.mem_cons_of_mem c hm))]

theorem pySplit_sep_append (sep : Char) (s1 s2 : List Char) (h : sep ∉ s1) :
    pySplit sep (s1 ++ sep :: s2) = s1 :: pySplit sep s2 := by
  induction s1 with
  | nil =>
    simp only [List.nil_append]
    rw [pySplit, if_pos rfl]
  | cons c cs ih =>
    have hc : ¬ c = sep := fun he => h (he ▸ List.mem_cons_self c cs)
    simp only [List.cons_append]
    rw [pySplit, if_neg hc, ih (fun hm => h (List.mem_cons_of_mem c hm))]

theorem pyStrip_pad (pad rest : List Char)
    (hpad : ∀ c ∈ pad, isPySpace c = true)
    (hh : ∀ c, rest.head? = some c → isPySpace c = false)
    (hl : ∀ c, rest.getLast? = some c → isPySpace c = false) :
    pyStrip (pad ++ rest) = rest := by
  unfold pyStrip
  rw [run_dropWhile isPySpace pad rest hpad hh]
  rw [dropWhile_eq_self_of_head isPySpace rest.reverse
    (fun c hc => hl c (by rwa [List.head?_reverse] at hc))]
  exact List.reverse_reverse rest

theorem pyStrip_eq_self (rest : List Char)
    (hh : ∀ c, rest.head? = some c → isPySpace c = false)
    (hl : ∀ c, rest.getLast? = some c → isPySpace c = false) :
    pyStrip rest = rest := by
  have := pyStrip_pad [] rest (by intro c hc; exact absurd hc (List.not_mem_nil c)) hh hl
  simpa using this

theorem mem_of_mem_pyStrip (s : List Char) (c : Char) (h : c ∈ pyStrip s) :
    c ∈ s := by
  unfold pyStrip at h
  rw [List.mem_reverse] at h
  have h2 : c ∈ (s.dropWhile isPySpace).reverse :=
    (List.dropWhile_sublist _).subset h
  rw [List.mem_reverse] at h2
  exact (List.dropWhile_sublist _).subset h2

theorem matchAt_cons_not_digit (c : Char) (cs : List Char)
    (hc : Char.isDigit c = false) : matchAt (c :: cs) = none := by
  simp only [matchAt]
  have hall : ((c :: cs).take 4).all Char.isDigit = false := by
    rw [List.take_succ_cons, List.all_cons, hc, Bool.false_and]
  rw [hall, Bool.and_false, if_neg (by simp)]

theorem searchPostal_no_digit (s : List Char)
    (h : ∀ c ∈ s, Char.isDigit c = false) : searchPostal s = none := by
  induction s with
  | nil => rfl
  | cons c cs ih =>
    rw [searchPostal, matchAt_cons_not_digit c cs (h c (List.mem_cons_self c cs))]
    exact ih (fun x hx => h x (List.mem_cons_of_mem c hx))

theorem matchAt_decomp (d city : List Char)
    (hd4 : d.length = 4) (hdd : ∀ c ∈ d, Char.isDigit c = true)
    (hc0 : city ≠ [])
    (hch : ∀ c, city.head? = some c → isPySpace c = false)
    (hcn : ∀ c ∈ city, ¬ c = '\n') :
    matchAt (d ++ ' ' :: city) = some (d, city) := by
  simp only [matchAt]
  have htake : (d ++ ' ' :: city).take 4 = d := by
    rw [← hd4]
    exact List.take_left d (' ' :: city)
  have hdrop : (d ++ ' ' :: city).drop 4 = ' ' :: city := by
    rw [← hd4]
    exact List.drop_left d (' ' :: city)
  rw [htake, hdrop]
  have hcond : (decide (d.length = 4) && d.all Char.isDigit) = true := by
    rw [hd4, Bool.and_eq_true]
    exact ⟨by decide, List.all_eq_true.mpr (fun c hc => hdd c hc)⟩
  rw [if_pos hcond]
  have hrun : (' ' :: city).takeWhile isPySpace = [' '] := by
    rw [List.takeWhile_cons]
    simp only [show isPySpace ' ' = true from rfl, if_true]
    cases city with
    | nil => rfl
    | cons c0 t =>
      have hc0f := hch c0 rfl
      rw [List.takeWhile_cons]
      simp [hc0f]
  have hr2 : (' ' :: city).dropWhile isPySpace = city := by
    rw [List.dropWhile_cons]
    simp only [show isPySpace ' ' = true from rfl, if_true]
    exact dropWhile_eq_self_of_head isPySpace city hch
  rw [hrun, hr2]
  rw [if_neg (by simp), if_neg (by simp [List.isEmpty_iff, hc0])]
  rw [takeWhile_eq_self_of_all (fun c => !(c = '\n')) city
    (fun c hc => by simp [hcn c hc])]

theorem searchPostal_pos (s : List Char) (r : List Char × List Char)
    (hne : s ≠ []) (hm : matchAt s = some r) : searchPostal s = some r := by
  cases s with
  | nil => exact absurd rfl hne
  | cons c cs => rw [searchPostal, hm]

theorem split_address_trailing (street pad d city : List Char)
    (hstreet : ',' ∉ street)
    (hpad : ∀ c ∈ pad, isPySpace c = true)
    (hd4 : d.length = 4) (hdd : ∀ c ∈ d, Char.isDigit c = true)
    (hdw : ∀ c ∈ d, isPySpace c = false)
    (hc0 : city ≠ [])
    (hch : ∀ c, city.head? = some c → isPySpace c = false)
    (hcl : ∀ c, city.getLast? = some c → isPySpace c = false)
    (hcn : ∀ c ∈ city, ¬ c = '\n')
    (hcc : ∀ c ∈ city, ¬ c = ',') :
    split_address (some (street ++ ',' :: (pad ++ (d ++ ' ' :: city))))
      = (some (pyStrip street), some d, some city) := by
  have hdne : d ≠ [] := by
    intro h
    rw [h] at hd4
    simp at hd4
  have hs2nc : ',' ∉ pad ++ (d ++ ' ' :: city) := by
    intro hm
    rcases List.mem_append.mp hm with hp | hm2
    · exact ne_comma_of_pySpace ',' (hpad ',' hp) rfl
    · rcases List.mem_append.mp hm2 with hd | hm3
      · exact ne_comma_of_digit ',' (hdd ',' hd) rfl
      · rcases List.mem_cons.mp hm3 with hsp | hcity
        · exact absurd hsp.symm (by decide)
        · exact hcc ',' hcity rfl
  have hh : ∀ c, (d ++ ' ' :: city).head? = some c → isPySpace c = false := by
    cases d with
    | nil => exact absurd rfl hdne
    | cons d0 dt =>
      intro c hc
      simp only [List.cons_append, List.head?_cons, Option.some.injEq] at hc
      subst hc
      exact hdw d0 (List.mem_cons_self _ _)
  have hl : ∀ c, (d ++ ' ' :: city).getLast? = some c → isPySpace c = false := by
    intro c hc
    rw [List.getLast?_append_of_ne_nil d (by simp)] at hc
    have : (' ' :: city) = [' '] ++ city := rfl
    rw [this, List.getLast?_append_of_ne_nil [' '] hc0] at hc
    exact hcl c hc
  have hstrip : pyStrip (pad ++ (d ++ ' ' :: city)) = d ++ ' ' :: city :=
    pyStrip_pad pad (d ++ ' ' :: city) hpad hh hl
  have hne : d ++ ' ' :: city ≠ [] := by
    cases d with
    | nil => simp
    | cons d0 dt => simp
  have hsp : searchPostal (pyStrip (pad ++ (d ++ ' ' :: city))) = some (d, city) := by
    rw [hstrip]
    exact searchPostal_pos _ _ hne (matchAt_decomp d city hd4 hdd hc0 hch hcn)
  simp only [split_address]
  rw [if_neg (by simp)]
  rw [pySplit_sep_append ',' street _ hstreet, pySplit_no_sep ',' _ hs2nc]
  simp only [List.map_cons, List.map_nil]
  show (match searchPostal (pyStrip (pad ++ (d ++ ' ' :: city))) with
    | some dc => (some (pyStrip street), some dc.1, some (pyStrip dc.2))
    | none => (some (pyStrip street), none, none))
    = (some (pyStrip street), some d, some city)
  rw [hsp]
  show (some (pyStrip street), some d, some (pyStrip city))
    = (some (pyStrip street), some d, some city)
  rw [pyStrip_eq_self city hch hcl]

theorem split_address_single (token : List Char)
    (htk : ',' ∉ token) (htd : ∀ c ∈ token, Char.isDigit c = false)
    (htn : token ≠ []) :
    split_address (some token) = (some (pyStrip token), none, none) := by
  simp only [split_address]
  rw [if_neg (by simp [htn])]
  rw [pySplit_no_sep ',' token htk]
  simp only [List.map_cons, List.map_nil]
  show (match searchPostal (pyStrip token) with
    | some dc => (none, some dc.1, some (pyStrip dc.2))
    | none => (some (pyStrip token), none, none))
    = (some (pyStrip token), none, none)
  rw [searchPostal_no_digit (pyStrip token)
    (fun c hc => htd c (mem_of_mem_pyStrip token c hc))]

theorem searchPostal_skip (pre rest : List Char)
    (h : ∀ c ∈ pre, Char.isDigit c = false) :
    searchPostal (pre ++ rest) = searchPostal rest := by
  induction pre with
  | nil => rfl
  | cons c cs ih =>
    rw [List.cons_append, searchPostal,
      matchAt_cons_not_digit c (cs ++ rest) (h c (List.mem_cons_self c cs))]
    exact ih (fun x hx => h x (List.mem_cons_of_mem c hx))

theorem split_address_single_occurrence (pre d city : List Char)
    (hprec : ',' ∉ pre)
    (hpred : ∀ c ∈ pre, Char.isDigit c = false)
    (hd4 : d.length = 4) (hdd : ∀ c ∈ d, Char.isDigit c = true)
    (hc0 : city ≠ [])
    (hch : ∀ c, city.head? = some c → isPySpace c = false)
    (hcl : ∀ c, city.getLast? = some c → isPySpace c = false)
    (hcn : ∀ c ∈ city, ¬ c = '\n')
    (hcc : ∀ c ∈ city, ¬ c = ',')
    (hph : ∀ c, (pre ++ (d ++ ' ' :: city)).head? = some c → isPySpace c = false) :
    split_address (some (pre ++ (d ++ ' ' :: city)))
      = (none, some d, some city) := by
  have hdne : d ≠ [] := by
    intro hnil
    rw [hnil] at hd4
    simp at hd4
  have hmid : d ++ ' ' :: city ≠ [] := by
    cases d with
    | nil => simp
    | cons a t => simp
  have htknc : ',' ∉ pre ++ (d ++ ' ' :: city) := by
    intro hm
    rcases List.mem_append.mp hm with hp | hm2
    · exact hprec hp
    · rcases List.mem_append.mp hm2 with hd2 | hm3
      · exact ne_comma_of_digit ',' (hdd ',' hd2) rfl
      · rcases List.mem_cons.mp hm3 with hsp | hcity
        · exact absurd hsp.symm (by decide)
        · exact hcc ',' hcity rfl
  have hlast : ∀ c, (pre ++ (d ++ ' ' :: city)).getLast? = some c →
      isPySpace c = false := by
    intro c hc
    rw [List.getLast?_append_of_ne_nil pre hmid] at hc
    rw [List.getLast?_append_of_ne_nil d (by simp)] at hc
    have hx : (' ' :: city) = [' '] ++ city := rfl
    rw [hx, List.getLast?_append_of_ne_nil [' '] hc0] at hc
    exact hcl c hc
  have hstrip : pyStrip (pre ++ (d ++ ' ' :: city)) = pre ++ (d ++ ' ' :: city) :=
    pyStrip_eq_self _ hph hlast
  have hne2 : pre ++ (d ++ ' ' :: city) ≠ [] := by
    intro hnil
    exact hmid (List.append_eq_nil.mp hnil).2
  have hsp : searchPostal (pyStrip (pre ++ (d ++ ' ' :: city))) = some (d, city) := by
    rw [hstrip, searchPostal_skip pre _ hpred]
    exact searchPostal_pos _ _ hmid (matchAt_decomp d city hd4 hdd hc0 hch hcn)
  simp only [split_address]
  rw [if_neg (by simp [List.isEmpty_iff, hne2])]
  rw [pySplit_no_sep ',' _ htknc]
  simp only [List.map_cons, List.map_nil]
  show (match searchPostal (pyStrip (pre ++ (d ++ ' ' :: city))) with
    | some dc => (none, some dc.1, some (pyStrip dc.2))
    | none => (some (pyStrip (pre ++ (d ++ ' ' :: city))), none, none))
    = (none, some d, some city)
  rw [hsp]
  show (none, some d, some (pyStrip city)) = (none, some d, some city)
  rw [pyStrip_eq_self city hch hcl]

theorem split_address_no_occurrence (street part1 : List Char)
    (hstreet : ',' ∉ street) (hp1c : ',' ∉ part1)
    (hp1d : ∀ c ∈ part1, Char.isDigit c = false) :
    split_address (some (street ++ ',' :: part1))
      = (some (pyStrip street), none, none) := by
  simp only [split_address]
  rw [if_neg (by simp)]
  rw [pySplit_sep_append ',' street part1 hstreet, pySplit_no_sep ',' part1 hp1c]
  simp only [List.map_cons, List.map_nil]
  show (match searchPostal (pyStrip part1) with
    | some dc => (some (pyStrip street), some dc.1, some (pyStrip dc.2))
    | none => (some (pyStrip street), none, none))
    = (some (pyStrip street), none, none)
  rw [searchPostal_no_digit (pyStrip part1)
    (fun c hc => hp1d c (mem_of_mem_pyStrip part1 c hc))]

/- ------------------------------------------------------------------
   Claim C3 (address splitter contract, amended)
   ------------------------------------------------------------------ -/
/-- C3 counterexample: a whitespace-only (blank) input does not yield three
absent components, it yields an empty street line; and with two parts the
postal pattern is searched anywhere in the second part, not only at its
start, so a non-leading four-digit run still sets the postal code. -/
theorem address_splitter_blank_and_anywhere :
    split_address (some ("   ").toList) ≠ (none, none, none)
  ∧ (split_address (some ("A, Building 1234 Oslo").toList)).2.1
      = some (("1234").toList) := by
  constructor
  · decide
  · decide

/-- C3 (amended): the splitter splits on commas; an absent or empty input
yields three absent components, while a whitespace-only (blank) input
yields an empty street line; a single comma-free token in which the
four-digit-code-then-city pattern occurs yields an absent street line with
the code and the trailing text, the pattern being searched anywhere in the
token, leftmost occurrence first; any other single comma-free token
becomes the stripped street line with postal code and city absent; with
two or more parts the first is the stripped street line, and the second is
searched anywhere for the pattern, the code and city set on an occurrence
and both absent when no occurrence exists; the embedding is a total
function, so no input raises.  Whitespace is Python's Unicode whitespace
set; digits are the ASCII fragment of the Unicode digit class, on which
the two coincide, so the digit-free cases carry an ASCII hypothesis. -/
theorem address_splitter_contract (street pad d city token pre part1 : List Char)
    (hstreet : ',' ∉ street)
    (hpad : ∀ c ∈ pad, isPySpace c = true)
    (hd4 : d.length = 4)
    (hdd : ∀ c ∈ d, Char.isDigit c = true)
    (hdw : ∀ c ∈ d, isPySpace c = false)
    (hc0 : city ≠ [])
    (hch : isPySpace (city.headD '0') = false)
    (hcl : isPySpace (city.getLastD '0') = false)
    (hcn : ∀ c ∈ city, ¬ c = '\n')
    (hcc : ∀ c ∈ city, ¬ c = ',')
    (htk : ',' ∉ token)
    (htA : ∀ c ∈ token, c.toNat < 128)
    (htd : ∀ c ∈ token, Char.isDigit c = false)
    (hprec : ',' ∉ pre)
    (hpreA : ∀ c ∈ pre, c.toNat < 128)
    (hpred : ∀ c ∈ pre, Char.isDigit c = false)
    (hphd : isPySpace ((pre ++ d).headD '0') = false)
    (hp1c : ',' ∉ part1)
    (hp1A : ∀ c ∈ part1, c.toNat < 128)
    (hp1d : ∀ c ∈ part1, Char.isDigit c = false) :
    split_address none = (none, none, none)
  ∧ split_address (some []) = (none, none, none)
  ∧ split_address (some (street ++ ',' :: (pad ++ (d ++ ' ' :: city))))
      = (some (pyStrip street), some d, some city)
  ∧ split_address (some (pre ++ (d ++ ' ' :: city))) = (none, some d, some city)
  ∧ split_address (some token)
      = (if token = [] then (none, none, none)
          else (some (pyStrip token), none, none))
  ∧ split_address (some (street ++ ',' :: part1))
      = (some (pyStrip street), none, none) := by
  have hch2 : ∀ c, city.head? = some c → isPySpace c = false := by
    intro c hc
    cases city with
    | nil => simp at hc
    | cons c0 t =>
      simp only [List.head?_cons, Option.some.injEq] at hc
      subst hc
      simpa using hch
  have hcl2 : ∀ c, city.getLast? = some c → isPySpace c = false := by
    intro c hc
    have hgd : city.getLastD '0' = c := by
      rw [List.getLastD_eq_getLast?, hc]
      rfl
    rw [← hgd]
    exact hcl
  have hph : ∀ c, (pre ++ (d ++ ' ' :: city)).head? = some c → isPySpace c = false := by
    intro c hc
    have hassoc : pre ++ (d ++ ' ' :: city) = (pre ++ d) ++ (' ' :: city) := by
      simp [List.append_assoc]
    rw [hassoc] at hc
    cases hpd : pre ++ d with
    | nil =>
      have hdnil : d = [] := (List.append_eq_nil.mp hpd).2
      rw [hdnil] at hd4
      simp at hd4
    | cons a t =>
      rw [hpd, List.cons_append, List.head?_cons, Option.some.injEq] at hc
      subst hc
      have hcopy := hphd
      rw [hpd] at hcopy
      simpa using hcopy
  refine ⟨rfl, rfl,
    split_address_trailing street pad d city hstreet hpad hd4 hdd hdw hc0 hch2 hcl2 hcn hcc,
    split_address_single_occurrence pre d city hprec hpred hd4 hdd hc0 hch2 hcl2 hcn hcc hph,
    ?_,
    split_address_no_occurrence street part1 hstreet hp1c hp1d⟩
  by_cases ht : token = []
  · subst ht
    simp [split_address]
  · rw [if_neg ht]
    exact split_address_single token htk htd ht

/-- Witness: the spec example Jerikoveien 91B, 0575 Oslo splits into the
street line, the postal code 0575 and the city Oslo; the single token
Foo 0575 Oslo yields the code and city found mid-token; the token N/A is
comma-free and digit-free and becomes the street line; and a second part
with no digits leaves postal code and city absent. -/
theorem address_splitter_contract_witness :
    ((',' ∉ ("Jerikoveien 91B").toList)
  ∧ (∀ c ∈ (" ").toList, isPySpace c = true)
  ∧ ("0575").toList.length = 4
  ∧ (∀ c ∈ ("0575").toList, Char.isDigit c = true)
  ∧ (∀ c ∈ ("0575").toList, isPySpace c = false)
  ∧ ("Oslo").toList ≠ []
  ∧ isPySpace (("Oslo").toList.headD '0') = false
  ∧ isPySpace (("Oslo").toList.getLastD '0') = false
  ∧ (∀ c ∈ ("Oslo").toList, ¬ c = '\n')
  ∧ (∀ c ∈ ("Oslo").toList, ¬ c = ',')
  ∧ (',' ∉ ("N/A").toList)
  ∧ (∀ c ∈ ("N/A").toList, c.toNat < 128)
  ∧ (∀ c ∈ ("N/A").toList, Char.isDigit c = false)
  ∧ (',' ∉ ("Foo ").toList)
  ∧ (∀ c ∈ ("Foo ").toList, c.toNat < 128)
  ∧ (∀ c ∈ ("Foo ").toList, Char.isDigit c = false)
  ∧ isPySpace ((("Foo ").toList ++ ("0575").toList).headD '0') = false
  ∧ (',' ∉ ("Ukjent sted").toList)
  ∧ (∀ c ∈ ("Ukjent sted").toList, c.toNat < 128)
  ∧ (∀ c ∈ ("Ukjent sted").toList, Char.isDigit c = false))
  ∧ (split_address none = (none, none, none)
    ∧ split_address (some []) = (none, none, none)
    ∧ split_address (some (("Jerikoveien 91B").toList
        ++ ',' :: ((" ").toList ++ (("0575").toList ++ ' ' :: ("Oslo").toList))))
      = (some (pyStrip ("Jerikoveien 91B").toList), some (("0575").toList),
          some (("Oslo").toList))
    ∧ split_address (some (("Foo ").toList
        ++ (("0575").toList ++ ' ' :: ("Oslo").toList)))
      = (none, some (("0575").toList), some (("Oslo").toList))
    ∧ split_address (some ("N/A").toList)
      = (if ("N/A").toList = [] then (none, none, none)
          else (some (pyStrip ("N/A").toList), none, none))
    ∧ split_address (some (("Jerikoveien 91B").toList ++ ',' :: ("Ukjent sted").toList))
      = (some (pyStrip ("Jerikoveien 91B").toList), none, none)) := by
  have hs :
      (',' ∉ ("Jerikoveien 91B").toList)
    ∧ (∀ c ∈ (" ").toList, isPySpace c = true)
    ∧ ("0575").toList.length = 4
    ∧ (∀ c ∈ ("0575").toList, Char.isDigit c = true)
    ∧ (∀ c ∈ ("0575").toList, isPySpace c = false)
    ∧ ("Oslo").toList ≠ []
    ∧ isPySpace (("Oslo").toList.headD '0') = false
    ∧ isPySpace (("Oslo").toList.getLastD '0') = false
    ∧ (∀ c ∈ ("Oslo").toList, ¬ c = '\n')
    ∧ (∀ c ∈ ("Oslo").toList, ¬ c = ',')
    ∧ (',' ∉ ("N/A").toList)
    ∧ (∀ c ∈ ("N/A").toList, c.toNat < 128)
    ∧ (∀ c ∈ ("N/A").toList, Char.isDigit c = false)
    ∧ (',' ∉ ("Foo ").toList)
    ∧ (∀ c ∈ ("Foo ").toList, c.toNat < 128)
    ∧ (∀ c ∈ ("Foo ").toList, Char.isDigit c = false)
    ∧ isPySpace ((("Foo ").toList ++ ("0575").toList).headD '0') = false
    ∧ (',' ∉ ("Ukjent sted").toList)
    ∧ (∀ c ∈ ("Ukjent sted").toList, c.toNat < 128)
    ∧ (∀ c ∈ ("Ukjent sted").toList, Char.isDigit c = false) := by
    decide
  obtain ⟨h1, h2, h3, h4, h5, h6, h7, h8, h9, h10, h11, h12, h13, h14, h15,
    h16, h17, h18, h19, h20⟩ := hs
  exact ⟨⟨h1, h2, h3, h4, h5, h6, h7, h8, h9, h10, h11, h12, h13, h14, h15,
      h16, h17, h18, h19, h20⟩,
    address_splitter_contract ("Jerikoveien 91B").toList (" ").toList
      ("0575").toList ("Oslo").toList ("N/A").toList ("Foo ").toList
      ("Ukjent sted").toList
      h1 h2 h3 h4 h5 h6 h7 h8 h9 h10 h11 h12 h13 h14 h15 h16 h17 h18 h19 h20⟩
